import Mathlib

/-!  Verification of the VM-network provisioning program.

A shallow embedding of `main.go`: the configuration model, the resource
declarations the program emits to the host runtime, and the run pipeline
itself.  Handles returned by the host runtime are modelled as positions in
the emission trace; the Go maps (`nsgMap`, `rtMap`, `snetMap`, `pipMap`,
`nicMap`) are modelled as association lists where a later insertion is
consed to the front, matching map overwrite semantics. -/

/-- Image configuration fragment (source: `type Image`). -/
structure Image where
  offer : String
  publisher : String
  sku : String
  version : String
deriving DecidableEq

/-- NIC configuration fragment (source: `type NIC`). -/
structure NIC where
  enableAcceleratedNetworking : Bool
  enableIPForwarding : Bool
  name : String
  pipName : String
  snetName : String
deriving DecidableEq

/-- VM NIC-binding names (source: `type NICMAP`). -/
structure NICMAP where
  nic0 : String
  nic1 : String
  nic2 : String
deriving DecidableEq

/-- Security rule configuration fragment (source: `type Rule`). -/
structure Rule where
  access : String
  destinationAddressPrefix : String
  destinationPortRange : String
  direction : String
  name : String
  priority : Int
  protocol : String
  sourceAddressPrefix : String
  sourcePortRange : String
deriving DecidableEq

/-- Network security group configuration fragment (source: `type NSG`). -/
structure NSG where
  name : String
  rules : List Rule
deriving DecidableEq

/-- Public IP configuration fragment (source: `type PIP`). -/
structure PIP where
  name : String
deriving DecidableEq

/-- Route configuration fragment (source: `type Route`). -/
structure Route where
  addressPrefix : String
  name : String
  nextHopIpAddress : String
  nextHopType : String
deriving DecidableEq

/-- Route table configuration fragment (source: `type RT`). -/
structure RT where
  name : String
  disableBgpRoutePropagation : Bool
  routes : List Route
deriving DecidableEq

/-- Subnet configuration fragment (source: `type SNET`). -/
structure SNET where
  addressPrefix : String
  name : String
  nsgName : String
  rtName : String
deriving DecidableEq

/-- Tags configuration fragment (source: `type Tags`). -/
structure Tags where
  automation : String
  solution : String
deriving DecidableEq

/-- VM configuration fragment (source: `type VM`). -/
structure VM where
  adminPassword : String
  adminUsername : String
  computerName : String
  image : Image
  nicMap : NICMAP
  storageAccountType : String
  vmSize : String
deriving DecidableEq

/-- Network configuration fragment (source: `type VNET`). -/
structure VNET where
  addressSpace : String
  nic : List NIC
  nsg : List NSG
  pip : List PIP
  rt : List RT
  snet : List SNET
deriving DecidableEq

/-- The whole configuration document: sections `tags`, `vnet`, `vm`
(source: the three `cfg.RequireObject` calls in `main`). -/
structure Config where
  tags : Tags
  vnet : VNET
  vm : VM
deriving DecidableEq

/-- One IP configuration of a declared NIC
(source: `network.NetworkInterfaceIPConfigurationArgs` built in the NIC loop). -/
structure IpConfig where
  name : String
  subnetId : Nat
  publicIPAddressId : Option Nat
deriving DecidableEq

/-- One NIC reference of the declared VM
(source: `compute.NetworkInterfaceReferenceArgs`). -/
structure NicRef where
  nicId : Nat
  primary : Bool
deriving DecidableEq

/-- OS profile of the declared VM (source: `compute.OSProfileArgs` literal). -/
structure OsProfile where
  adminPassword : String
  adminUsername : String
  allowExtensionOperations : Bool
  computerName : String
  disablePasswordAuthentication : Bool
  enableVMAgentPlatformUpdates : Bool
  provisionVMAgent : Bool
deriving DecidableEq

/-- Marketplace plan of the declared VM (source: `compute.PlanArgs` literal). -/
structure Plan where
  name : String
  product : String
  publisher : String
deriving DecidableEq

/-- OS disk of the declared VM (source: `compute.OSDiskArgs` literal). -/
structure OsDisk where
  caching : String
  createOption : String
  deleteOption : String
  diskSizeGB : Nat
  storageAccountType : String
  name : String
deriving DecidableEq

/-- Arguments of the declared random-string resource
(source: `random.RandomStringArgs` literal at the `random-os-disk-id` declaration). -/
structure RandomStringArgs where
  length : Nat
  lower : Bool
  minLower : Nat
  minNumeric : Nat
  numeric : Bool
  special : Bool
  upper : Bool
deriving DecidableEq

/-- A resource declaration emitted to the host runtime.  One constructor per
resource kind the program declares.  `DependsOn`/`Parent` edges and the
`ResourceGroupName` argument are not recorded: the claims under study concern
the emission trace and the declared fields below. -/
inductive Decl where
  | resourceGroup (name : String) (tags : List (String × String))
  | networkSecurityGroup (name : String) (securityRules : List Rule)
      (tags : List (String × String))
  | routeTable (name : String) (disableBgpRoutePropagation : Bool)
      (routes : List Route) (tags : List (String × String))
  | virtualNetwork (name : String) (addressSpace : String)
      (tags : List (String × String))
  | subnet (name : String) (addressPfx : String) (nsgId : Nat) (rtId : Nat)
      (vnetId : Nat)
  | publicIPAddress (name : String) (allocationMethod : String)
      (skuName : String) (skuTier : String) (tags : List (String × String))
  | networkInterface (name : String) (enableAcceleratedNetworking : Bool)
      (enableIPForwarding : Bool) (nicType : String)
      (ipConfigurations : List IpConfig) (tags : List (String × String))
  | randomString (name : String) (args : RandomStringArgs)
  | virtualMachine (name : String) (vmSize : String)
      (networkInterfaces : List NicRef) (osProfile : OsProfile) (plan : Plan)
      (imageReference : Image) (osDisk : OsDisk)
      (tags : List (String × String))
deriving DecidableEq

/-- Ways the declaration run can fail.  `readmeMissing` models the wrapped
readme read error; `nilDeref` models the Go nil-pointer panic raised by
calling `.ID()` on a missing map entry (it records the map and the looked-up
key).  `unresolvedReference` is modelled from the spec: the spec's error
taxonomy names `UnresolvedReference(kind, name)`, but no code of `main.go`
constructs such an error; the constructor exists so that statements about it
can be written down and compared with what the code does. -/
inductive RunError where
  | readmeMissing
  | nilDeref (mapName : String) (key : String)
  | unresolvedReference (kind : String) (name : String)
deriving DecidableEq

/-- Whether a run error is the spec's `UnresolvedReference`. -/
def RunError.isUnresolvedRef : RunError → Bool
  | .unresolvedReference _ _ => true
  | _ => false

/-- Result of a run: exported stack outputs, the emitted declaration trace,
and the error that aborted the run, if any. -/
structure RunResult where
  exports : List (String × String)
  decls : List Decl
  err : Option RunError
deriving DecidableEq

/-- A name-resolution index: logical name to handle.  Handles are positions
in the emission trace. -/
abbrev Index := List (String × Nat)

/-- Lowercase ASCII letter test, used by the random-string provider model. -/
def isLowerAlpha (c : Char) : Bool := decide ('a'.toNat ≤ c.toNat ∧ c.toNat ≤ 'z'.toNat)

/-- ASCII digit test, used by the random-string provider model. -/
def isDigitCh (c : Char) : Bool := decide ('0'.toNat ≤ c.toNat ∧ c.toNat ≤ '9'.toNat)

/-- Uppercase ASCII letter test, used by the random-string provider model. -/
def isUpperAlpha (c : Char) : Bool := decide ('A'.toNat ≤ c.toNat ∧ c.toNat ≤ 'Z'.toNat)

/-- Modelled from the spec: membership in the special-character set of the
external random-string provider (the spec only requires that the generated
identifier has "no special characters"). -/
def isSpecialCh (c : Char) : Bool := "!@#$%&*()-_=+[]<>:?".data.contains c

/-- Modelled from the spec: whether a character may occur in a string produced
by the external random-string provider under the given arguments. -/
def allowedChar (a : RandomStringArgs) (c : Char) : Bool :=
  (a.lower && isLowerAlpha c) || (a.numeric && isDigitCh c) ||
    (a.upper && isUpperAlpha c) || (a.special && isSpecialCh c)

/-- Modelled from the spec: the contract of the external random-string
provider (not part of this repository).  A produced string has the requested
length, draws every character from the enabled character classes, and meets
the minimum counts for lowercase letters and digits. -/
def SatisfiesRandomArgs (a : RandomStringArgs) (s : String) : Prop :=
  s.data.length = a.length ∧
  (∀ c ∈ s.data, allowedChar a c = true) ∧
  a.minLower ≤ s.data.countP isLowerAlpha ∧
  a.minNumeric ≤ s.data.countP isDigitCh

instance (a : RandomStringArgs) (s : String) : Decidable (SatisfiesRandomArgs a s) := by
  unfold SatisfiesRandomArgs
  exact inferInstance

/-- The standard name suffix (source: `nameSuffix := "panos-vm-" + ctx.Stack() + "-"`). -/
def nameSuffixOf (stack : String) : String := "panos-vm-" ++ stack ++ "-"

/-- The required tag map (source: `requiredTags`). -/
def requiredTagsOf (t : Tags) : List (String × String) :=
  [("automation", t.automation), ("solution", t.solution)]

/-- The resource group declaration (source: `resources.NewResourceGroup`). -/
def rgDecl (sfx : String) (tags : List (String × String)) : Decl :=
  .resourceGroup ("rg-" ++ sfx) tags

/-- One NSG declaration (source: `network.NewNetworkSecurityGroup` in the NSG
loop; the per-rule translation to `SecurityRuleTypeArgs` is the identity on
our `Rule` record). -/
def mkNsgDecl (tags : List (String × String)) (sfx : String) (g : NSG) : Decl :=
  .networkSecurityGroup ("nsg-" ++ g.name ++ "-" ++ sfx) g.rules tags

/-- One route table declaration (source: `network.NewRouteTable` in the RT
loop; the per-route translation to `RouteTypeArgs` is the identity on our
`Route` record). -/
def mkRtDecl (tags : List (String × String)) (sfx : String) (r : RT) : Decl :=
  .routeTable ("rt-" ++ r.name ++ "-" ++ sfx) r.disableBgpRoutePropagation r.routes tags

/-- The virtual network declaration (source: `network.NewVirtualNetwork`). -/
def vnetDecl (cfg : Config) (sfx : String) (tags : List (String × String)) : Decl :=
  .virtualNetwork ("vnet-" ++ sfx) cfg.vnet.addressSpace tags

/-- One public IP declaration (source: `network.NewPublicIPAddress` in the PIP loop). -/
def mkPipDecl (tags : List (String × String)) (sfx : String) (p : PIP) : Decl :=
  .publicIPAddress ("pip-" ++ p.name ++ "-" ++ sfx) "Static" "Standard" "Regional" tags

/-- One NIC declaration given the resolved subnet handle and the optional
public-IP handle (source: `network.NewNetworkInterface` in the NIC loop). -/
def mkNicDecl (tags : List (String × String)) (sfx : String) (sh : Nat)
    (pip : Option Nat) (n : NIC) : Decl :=
  .networkInterface ("nic-" ++ n.name ++ "-" ++ sfx) n.enableAcceleratedNetworking
    n.enableIPForwarding "Standard" [⟨"ipconfig", sh, pip⟩] tags

/-- The arguments of the random OS-disk identifier declaration
(source: the `random.RandomStringArgs` literal). -/
def declaredRandomArgs : RandomStringArgs :=
  ⟨8, true, 4, 4, true, false, false⟩

/-- The random OS-disk identifier declaration (source: `random.NewRandomString`). -/
def randomDecl : Decl := .randomString "random-os-disk-id" declaredRandomArgs

/-- The declared OS disk (source: the `compute.OSDiskArgs` literal; its name
is `Sprintf("os-%s%s", nameSuffix, randomOsDiskId.Result)`, with `rnd` the
string the random provider produced). -/
def mkOsDisk (sfx : String) (sat : String) (rnd : String) : OsDisk :=
  ⟨"ReadWrite", "FromImage", "Delete", 127, sat, "os-" ++ sfx ++ rnd⟩

/-- The VM declaration given the three resolved NIC handles
(source: `compute.NewVirtualMachine`). -/
def mkVmDecl (cfg : Config) (sfx : String) (tags : List (String × String))
    (rnd : String) (h0 h1 h2 : Nat) : Decl :=
  .virtualMachine ("vm-" ++ cfg.tags.solution ++ "-prod-") cfg.vm.vmSize
    [⟨h0, true⟩, ⟨h1, false⟩, ⟨h2, false⟩]
    ⟨cfg.vm.adminPassword, cfg.vm.adminUsername, true, cfg.vm.computerName,
      false, true, true⟩
    ⟨cfg.vm.image.sku, cfg.vm.image.offer, cfg.vm.image.publisher⟩
    cfg.vm.image
    (mkOsDisk sfx cfg.vm.storageAccountType rnd)
    tags

/-- The NSG loop (source: `for _, nsg := range vnet.NSG`).  Appends one
declaration per entry and records `name → handle` in the index; a later entry
with the same name shadows an earlier one, as Go map assignment does. -/
def nsgLoop (tags : List (String × String)) (sfx : String) :
    List NSG → List Decl → Index → List Decl × Index
  | [], ds, m => (ds, m)
  | g :: rest, ds, m =>
      nsgLoop tags sfx rest (ds ++ [mkNsgDecl tags sfx g]) ((g.name, ds.length) :: m)

/-- The route table loop (source: `for _, rt := range vnet.RT`). -/
def rtLoop (tags : List (String × String)) (sfx : String) :
    List RT → List Decl → Index → List Decl × Index
  | [], ds, m => (ds, m)
  | r :: rest, ds, m =>
      rtLoop tags sfx rest (ds ++ [mkRtDecl tags sfx r]) ((r.name, ds.length) :: m)

/-- The subnet loop (source: `for _, snet := range vnet.SNET`).  Looking up a
missing NSG or RT name models the Go nil-pointer panic of
`nsgMap[snet.NSGName].ID()` / `rtMap[snet.RTName].ID()`; the NSG field of the
args literal is evaluated before the RT field. -/
def snetLoop (nsgM rtM : Index) (vnetId : Nat) :
    List SNET → List Decl → Index → List Decl × Index × Option RunError
  | [], ds, m => (ds, m, none)
  | s :: rest, ds, m =>
    match List.lookup s.nsgName nsgM with
    | none => (ds, m, some (.nilDeref "nsgMap" s.nsgName))
    | some nh =>
      match List.lookup s.rtName rtM with
      | none => (ds, m, some (.nilDeref "rtMap" s.rtName))
      | some rh =>
          snetLoop nsgM rtM vnetId rest
            (ds ++ [.subnet ("snet-" ++ s.name) s.addressPrefix nh rh vnetId])
            ((s.name, ds.length) :: m)

/-- The public IP loop (source: `for _, pip := range vnet.PIP`). -/
def pipLoop (tags : List (String × String)) (sfx : String) :
    List PIP → List Decl → Index → List Decl × Index
  | [], ds, m => (ds, m)
  | p :: rest, ds, m =>
      pipLoop tags sfx rest (ds ++ [mkPipDecl tags sfx p]) ((p.name, ds.length) :: m)

/-- The NIC loop (source: `for _, nic := range vnet.NIC`).  A missing subnet
name models the nil-pointer panic of `snetMap[nic.SnetName].ID()`; the
public-IP binding is attached exactly when `pipMap` contains `nic.PipName`
(the `if pip, exists := pipMap[nic.PipName]; exists` guard). -/
def nicLoop (tags : List (String × String)) (sfx : String) (snetM pipM : Index) :
    List NIC → List Decl → Index → List Decl × Index × Option RunError
  | [], ds, m => (ds, m, none)
  | n :: rest, ds, m =>
    match List.lookup n.snetName snetM with
    | none => (ds, m, some (.nilDeref "snetMap" n.snetName))
    | some sh =>
        nicLoop tags sfx snetM pipM rest
          (ds ++ [mkNicDecl tags sfx sh (List.lookup n.pipName pipM) n])
          ((n.name, ds.length) :: m)

/-- The VM step (source: `compute.NewVirtualMachine`).  The three
`nicMap[...]` lookups are evaluated in the order nic0, nic1, nic2; a missing
name models the nil-pointer panic on that lookup. -/
def vmStep (nicM : Index) (cfg : Config) (sfx : String)
    (tags : List (String × String)) (rnd : String) (ds : List Decl) :
    List Decl × Option RunError :=
  match List.lookup cfg.vm.nicMap.nic0 nicM with
  | none => (ds, some (.nilDeref "nicMap" cfg.vm.nicMap.nic0))
  | some h0 =>
    match List.lookup cfg.vm.nicMap.nic1 nicM with
    | none => (ds, some (.nilDeref "nicMap" cfg.vm.nicMap.nic1))
    | some h1 =>
      match List.lookup cfg.vm.nicMap.nic2 nicM with
      | none => (ds, some (.nilDeref "nicMap" cfg.vm.nicMap.nic2))
      | some h2 => (ds ++ [mkVmDecl cfg sfx tags rnd h0 h1 h2], none)

/-- The common tag map of a configuration. -/
def tagsOf (cfg : Config) : List (String × String) := requiredTagsOf cfg.tags

/-- Trace after the resource group declaration. -/
def declsRg (stack : String) (cfg : Config) : List Decl :=
  [rgDecl (nameSuffixOf stack) (tagsOf cfg)]

/-- Trace and NSG index after the NSG loop. -/
def nsgOut (stack : String) (cfg : Config) : List Decl × Index :=
  nsgLoop (tagsOf cfg) (nameSuffixOf stack) cfg.vnet.nsg (declsRg stack cfg) []

/-- Trace and RT index after the route table loop. -/
def rtOut (stack : String) (cfg : Config) : List Decl × Index :=
  rtLoop (tagsOf cfg) (nameSuffixOf stack) cfg.vnet.rt (nsgOut stack cfg).1 []

/-- Handle of the virtual network: its position in the trace. -/
def vnetId (stack : String) (cfg : Config) : Nat := (rtOut stack cfg).1.length

/-- Trace after the virtual network declaration. -/
def declsToVnet (stack : String) (cfg : Config) : List Decl :=
  (rtOut stack cfg).1 ++ [vnetDecl cfg (nameSuffixOf stack) (tagsOf cfg)]

/-- Trace, subnet index and possible panic after the subnet loop. -/
def snetOut (stack : String) (cfg : Config) : List Decl × Index × Option RunError :=
  snetLoop (nsgOut stack cfg).2 (rtOut stack cfg).2 (vnetId stack cfg)
    cfg.vnet.snet (declsToVnet stack cfg) []

/-- Trace and PIP index after the public IP loop. -/
def pipOut (stack : String) (cfg : Config) : List Decl × Index :=
  pipLoop (tagsOf cfg) (nameSuffixOf stack) cfg.vnet.pip (snetOut stack cfg).1 []

/-- Trace, NIC index and possible panic after the NIC loop. -/
def nicOut (stack : String) (cfg : Config) : List Decl × Index × Option RunError :=
  nicLoop (tagsOf cfg) (nameSuffixOf stack) (snetOut stack cfg).2.1
    (pipOut stack cfg).2 cfg.vnet.nic (pipOut stack cfg).1 []

/-- Trace after the random OS-disk identifier declaration. -/
def declsToRandom (stack : String) (cfg : Config) : List Decl :=
  (nicOut stack cfg).1 ++ [randomDecl]

/-- Trace and possible panic after the VM declaration. -/
def vmOut (stack : String) (cfg : Config) (rnd : String) : List Decl × Option RunError :=
  vmStep (nicOut stack cfg).2.1 cfg (nameSuffixOf stack) (tagsOf cfg) rnd
    (declsToRandom stack cfg)

/-- The whole run (source: the `pulumi.Run` body of `main`).  `readme` is the
content of `./README.md` if readable; `stack` is the stack identifier;
`rnd` is the string the external random provider produces for the
`random-os-disk-id` resource.  The readme is read and exported first; then
resources are declared in source order, stopping at the first panic. -/
def runProgram (readme : Option String) (stack : String) (cfg : Config)
    (rnd : String) : RunResult :=
  match readme with
  | none => ⟨[], [], some .readmeMissing⟩
  | some txt =>
    match (snetOut stack cfg).2.2 with
    | some e => ⟨[("readme", txt)], (snetOut stack cfg).1, some e⟩
    | none =>
      match (nicOut stack cfg).2.2 with
      | some e => ⟨[("readme", txt)], (nicOut stack cfg).1, some e⟩
      | none =>
          ⟨[("readme", txt)], (vmOut stack cfg rnd).1, (vmOut stack cfg rnd).2⟩

/-- Declared name of a resource declaration. -/
def Decl.name : Decl → String
  | .resourceGroup n _ => n
  | .networkSecurityGroup n _ _ => n
  | .routeTable n _ _ _ => n
  | .virtualNetwork n _ _ => n
  | .subnet n _ _ _ _ => n
  | .publicIPAddress n _ _ _ _ => n
  | .networkInterface n _ _ _ _ _ => n
  | .randomString n _ => n
  | .virtualMachine n _ _ _ _ _ _ _ => n

/-- Tag map of a declaration, if its kind is taggable. -/
def Decl.tagMap : Decl → Option (List (String × String))
  | .resourceGroup _ t => some t
  | .networkSecurityGroup _ _ t => some t
  | .routeTable _ _ _ t => some t
  | .virtualNetwork _ _ t => some t
  | .subnet _ _ _ _ _ => none
  | .publicIPAddress _ _ _ _ t => some t
  | .networkInterface _ _ _ _ _ t => some t
  | .randomString _ _ => none
  | .virtualMachine _ _ _ _ _ _ _ t => some t

/-- Rank of a declaration's kind in the dependency order of section 4.4 of
the spec: resource group, NSGs, route tables, virtual network, subnets,
public IPs, NICs, random identifier, VM. -/
def kindRank : Decl → Nat
  | .resourceGroup _ _ => 0
  | .networkSecurityGroup _ _ _ => 1
  | .routeTable _ _ _ _ => 2
  | .virtualNetwork _ _ _ => 3
  | .subnet _ _ _ _ _ => 4
  | .publicIPAddress _ _ _ _ _ => 5
  | .networkInterface _ _ _ _ _ _ => 6
  | .randomString _ _ => 7
  | .virtualMachine _ _ _ _ _ _ _ _ => 8

/-- Resolve a logical name against a list of entries the way the Go maps do:
the LAST entry with that name wins; the handle of entry `i` is `base + i`
(one declaration is appended per entry). -/
def resolveLast (f : α → String) (base : Nat) : List α → String → Option Nat
  | [], _ => none
  | a :: rest, nm =>
    match resolveLast f (base + 1) rest nm with
    | some h => some h
    | none => if f a = nm then some base else none

/-- The index entries a declaration loop conses up, newest first. -/
def revEntries (f : α → String) (base : Nat) : List α → Index
  | [] => []
  | a :: rest => revEntries f (base + 1) rest ++ [(f a, base)]

/-- Emission-order relation: an earlier declaration's kind never ranks above
a later one's. -/
def rankLE (a b : Decl) : Prop := kindRank a ≤ kindRank b

/-- A small happy-path configuration: one NSG `g`, one route table `t`, one
subnet `s1` referencing them, no public IP, one NIC `n` with an empty
`pipName`, and a VM binding `n` three times.  The solution tag is `s`. -/
def cfgOk : Config :=
  ⟨⟨"a", "s"⟩,
   ⟨"10.0.0.0/16",
    [⟨false, false, "n", "", "s1"⟩],
    [⟨"g", []⟩],
    [],
    [⟨"t", false, []⟩],
    [⟨"10.0.0.0/24", "s1", "g", "t"⟩]⟩,
   ⟨"pw", "admin", "comp", ⟨"offer", "pub", "sku", "1.0"⟩, ⟨"n", "n", "n"⟩,
    "Premium_LRS", "Standard_D3"⟩⟩

/-- A configuration whose only subnet references the undeclared NSG
`nsg-ghost` (there are no NSGs at all). -/
def cfgGhost : Config :=
  ⟨⟨"a", "s"⟩,
   ⟨"10.0.0.0/16",
    [],
    [],
    [],
    [⟨"t", false, []⟩],
    [⟨"10.0.0.0/24", "s1", "nsg-ghost", "t"⟩]⟩,
   ⟨"pw", "admin", "comp", ⟨"offer", "pub", "sku", "1.0"⟩, ⟨"n", "n", "n"⟩,
    "Premium_LRS", "Standard_D3"⟩⟩

/-- A configuration that declares a public IP whose logical name is the empty
string, and a NIC whose `pipName` is also empty. -/
def cfgEmptyPip : Config :=
  ⟨⟨"a", "s"⟩,
   ⟨"10.0.0.0/16",
    [⟨false, false, "n1", "", "s1"⟩],
    [⟨"g", []⟩],
    [⟨""⟩],
    [⟨"t", false, []⟩],
    [⟨"10.0.0.0/24", "s1", "g", "t"⟩]⟩,
   ⟨"pw", "admin", "comp", ⟨"offer", "pub", "sku", "1.0"⟩, ⟨"n1", "n1", "n1"⟩,
    "Premium_LRS", "Standard_D3"⟩⟩

/-- A configuration with two NSGs and two route tables sharing one logical
name each, a subnet referencing the shared names, and a NIC bound to it. -/
def cfgDup : Config :=
  ⟨⟨"a", "s"⟩,
   ⟨"10.0.0.0/16",
    [⟨false, false, "n", "p", "s1"⟩],
    [⟨"g", []⟩, ⟨"g", [⟨"Allow", "*", "*", "Inbound", "r1", 100, "Tcp", "*", "*"⟩]⟩],
    [⟨"p"⟩],
    [⟨"t", false, []⟩, ⟨"t", true, []⟩],
    [⟨"10.0.0.0/24", "s1", "g", "t"⟩]⟩,
   ⟨"pw", "admin", "comp", ⟨"offer", "pub", "sku", "1.0"⟩, ⟨"n", "n", "n"⟩,
    "Premium_LRS", "Standard_D3"⟩⟩

theorem lookup_append (nm : String) (x y : Index) :
    List.lookup nm (x ++ y) = ((List.lookup nm x).orElse fun _ => List.lookup nm y) := by
  induction x with
  | nil => simp [Option.orElse]
  | cons p rest ih =>
    rcases p with ⟨k, v⟩
    by_cases h : nm = k
    · simp [List.lookup_cons, h, Option.orElse]
    · simp only [List.cons_append, List.lookup_cons]
      have hb : (nm == k) = false := beq_false_of_ne h
      simp [hb, ih]

theorem lookup_revEntries (f : α → String) (base : Nat) (l : List α) (nm : String) :
    List.lookup nm (revEntries f base l) = resolveLast f base l nm := by
  induction l generalizing base with
  | nil => simp [revEntries, resolveLast]
  | cons a rest ih =>
    simp only [revEntries, resolveLast, lookup_append, ih]
    cases h : resolveLast f (base + 1) rest nm with
    | some v => simp [Option.orElse]
    | none =>
      by_cases hf : f a = nm
      · simp [Option.orElse, List.lookup_cons, hf]
      · have hb : (nm == f a) = false := beq_false_of_ne (Ne.symm hf)
        simp [Option.orElse, List.lookup_cons, hb, hf]

theorem resolveLast_eq_none (f : α → String) (base : Nat) (l : List α) (nm : String) :
    resolveLast f base l nm = none ↔ nm ∉ l.map f := by
  induction l generalizing base with
  | nil => simp [resolveLast]
  | cons a rest ih =>
    simp only [resolveLast, List.map_cons, List.mem_cons]
    cases h : resolveLast f (base + 1) rest nm with
    | some v =>
      have hrest : nm ∈ rest.map f := by
        by_contra hn
        rw [(ih (base + 1)).mpr hn] at h
        cases h
      simp only []
      constructor
      · intro hc; cases hc
      · intro hc; exact absurd hrest (fun hm => hc (Or.inr hm))
    | none =>
      have hrest : nm ∉ rest.map f := (ih (base + 1)).mp h
      by_cases hf : f a = nm
      · simp [hf]
      · simp [hf, hrest, Ne.symm hf]

theorem nsgLoop_decls (tags : List (String × String)) (sfx : String) (l : List NSG)
    (ds : List Decl) (m : Index) :
    (nsgLoop tags sfx l ds m).1 = ds ++ l.map (mkNsgDecl tags sfx) := by
  induction l generalizing ds m with
  | nil => simp [nsgLoop]
  | cons g rest ih => simp [nsgLoop, ih]

theorem nsgLoop_index (tags : List (String × String)) (sfx : String) (l : List NSG)
    (ds : List Decl) (m : Index) :
    (nsgLoop tags sfx l ds m).2 = revEntries NSG.name ds.length l ++ m := by
  induction l generalizing ds m with
  | nil => simp [nsgLoop, revEntries]
  | cons g rest ih => simp [nsgLoop, revEntries, ih]

theorem rtLoop_decls (tags : List (String × String)) (sfx : String) (l : List RT)
    (ds : List Decl) (m : Index) :
    (rtLoop tags sfx l ds m).1 = ds ++ l.map (mkRtDecl tags sfx) := by
  induction l generalizing ds m with
  | nil => simp [rtLoop]
  | cons r rest ih => simp [rtLoop, ih]

theorem rtLoop_index (tags : List (String × String)) (sfx : String) (l : List RT)
    (ds : List Decl) (m : Index) :
    (rtLoop tags sfx l ds m).2 = revEntries RT.name ds.length l ++ m := by
  induction l generalizing ds m with
  | nil => simp [rtLoop, revEntries]
  | cons r rest ih => simp [rtLoop, revEntries, ih]

theorem pipLoop_decls (tags : List (String × String)) (sfx : String) (l : List PIP)
    (ds : List Decl) (m : Index) :
    (pipLoop tags sfx l ds m).1 = ds ++ l.map (mkPipDecl tags sfx) := by
  induction l generalizing ds m with
  | nil => simp [pipLoop]
  | cons p rest ih => simp [pipLoop, ih]

theorem pipLoop_index (tags : List (String × String)) (sfx : String) (l : List PIP)
    (ds : List Decl) (m : Index) :
    (pipLoop tags sfx l ds m).2 = revEntries PIP.name ds.length l ++ m := by
  induction l generalizing ds m with
  | nil => simp [pipLoop, revEntries]
  | cons p rest ih => simp [pipLoop, revEntries, ih]

theorem snetLoop_ok (nsgM rtM : Index) (vId : Nat) (l : List SNET) (ds : List Decl)
    (m : Index) (h : (snetLoop nsgM rtM vId l ds m).2.2 = none) :
    (snetLoop nsgM rtM vId l ds m).1 =
      ds ++ l.map (fun s => Decl.subnet ("snet-" ++ s.name) s.addressPrefix
        ((List.lookup s.nsgName nsgM).getD 0) ((List.lookup s.rtName rtM).getD 0) vId) ∧
    (snetLoop nsgM rtM vId l ds m).2.1 = revEntries SNET.name ds.length l ++ m := by
  induction l generalizing ds m with
  | nil => simp [snetLoop, revEntries]
  | cons s rest ih =>
    cases hn : List.lookup s.nsgName nsgM with
    | none => rw [snetLoop, hn] at h; cases h
    | some nh =>
      cases hr : List.lookup s.rtName rtM with
      | none => rw [snetLoop, hn, hr] at h; cases h
      | some rh =>
        rw [snetLoop, hn, hr] at h ⊢
        obtain ⟨h1, h2⟩ := ih _ _ h
        refine ⟨?_, ?_⟩
        · rw [h1]; simp [hn, hr]
        · rw [h2]; simp [revEntries]

theorem snetLoop_fail (nsgM rtM : Index) (vId : Nat) (l : List SNET) (ds : List Decl)
    (m : Index) (s : SNET) (hs : s ∈ l)
    (hmiss : List.lookup s.nsgName nsgM = none ∨ List.lookup s.rtName rtM = none) :
    ∃ mp k, (snetLoop nsgM rtM vId l ds m).2.2 = some (.nilDeref mp k) ∧
      (mp = "nsgMap" ∨ mp = "rtMap") := by
  induction l generalizing ds m with
  | nil => cases hs
  | cons a rest ih =>
    cases hn : List.lookup a.nsgName nsgM with
    | none => exact ⟨"nsgMap", a.nsgName, by rw [snetLoop, hn], Or.inl rfl⟩
    | some nh =>
      cases hr : List.lookup a.rtName rtM with
      | none => exact ⟨"rtMap", a.rtName, by rw [snetLoop, hn, hr], Or.inr rfl⟩
      | some rh =>
        rcases List.mem_cons.mp hs with he | hm
        · subst he
          rcases hmiss with hx | hx
          · rw [hx] at hn; cases hn
          · rw [hx] at hr; cases hr
        · rw [snetLoop, hn, hr]
          exact ih _ _ hm

theorem snetLoop_shape (nsgM rtM : Index) (vId : Nat) (l : List SNET) (ds : List Decl)
    (m : Index) :
    ∃ new, (snetLoop nsgM rtM vId l ds m).1 = ds ++ new ∧
      ∀ d ∈ new, ∃ s nh rh, s ∈ l ∧
        d = Decl.subnet ("snet-" ++ s.name) s.addressPrefix nh rh vId := by
  induction l generalizing ds m with
  | nil => exact ⟨[], by simp [snetLoop], by simp⟩
  | cons s rest ih =>
    cases hn : List.lookup s.nsgName nsgM with
    | none => exact ⟨[], by rw [snetLoop, hn]; simp, by simp⟩
    | some nh =>
      cases hr : List.lookup s.rtName rtM with
      | none => exact ⟨[], by rw [snetLoop, hn, hr]; simp, by simp⟩
      | some rh =>
        obtain ⟨new, h1, h2⟩ :=
          ih (ds ++ [Decl.subnet ("snet-" ++ s.name) s.addressPrefix nh rh vId])
            ((s.name, ds.length) :: m)
        refine ⟨Decl.subnet ("snet-" ++ s.name) s.addressPrefix nh rh vId :: new, ?_, ?_⟩
        · rw [snetLoop, hn, hr, h1]; simp
        · intro d hd
          rcases List.mem_cons.mp hd with he | hm
          · exact ⟨s, nh, rh, List.mem_cons_self _ _, he⟩
          · obtain ⟨s', nh', rh', hs', he'⟩ := h2 d hm
            exact ⟨s', nh', rh', List.mem_cons_of_mem _ hs', he'⟩

theorem nicLoop_ok (tags : List (String × String)) (sfx : String) (snetM pipM : Index)
    (l : List NIC) (ds : List Decl) (m : Index)
    (h : (nicLoop tags sfx snetM pipM l ds m).2.2 = none) :
    (nicLoop tags sfx snetM pipM l ds m).1 =
      ds ++ l.map (fun n => mkNicDecl tags sfx ((List.lookup n.snetName snetM).getD 0)
        (List.lookup n.pipName pipM) n) ∧
    (nicLoop tags sfx snetM pipM l ds m).2.1 = revEntries NIC.name ds.length l ++ m := by
  induction l generalizing ds m with
  | nil => simp [nicLoop, revEntries]
  | cons n rest ih =>
    cases hn : List.lookup n.snetName snetM with
    | none => rw [nicLoop, hn] at h; cases h
    | some sh =>
      rw [nicLoop, hn] at h ⊢
      obtain ⟨h1, h2⟩ := ih _ _ h
      refine ⟨?_, ?_⟩
      · rw [h1]; simp [hn]
      · rw [h2]; simp [revEntries]

theorem nicLoop_shape (tags : List (String × String)) (sfx : String) (snetM pipM : Index)
    (l : List NIC) (ds : List Decl) (m : Index) :
    ∃ new, (nicLoop tags sfx snetM pipM l ds m).1 = ds ++ new ∧
      ∀ d ∈ new, ∃ n sh pip, n ∈ l ∧ d = mkNicDecl tags sfx sh pip n := by
  induction l generalizing ds m with
  | nil => exact ⟨[], by simp [nicLoop], by simp⟩
  | cons n rest ih =>
    cases hn : List.lookup n.snetName snetM with
    | none => exact ⟨[], by rw [nicLoop, hn]; simp, by simp⟩
    | some sh =>
      obtain ⟨new, h1, h2⟩ :=
        ih (ds ++ [mkNicDecl tags sfx sh (List.lookup n.pipName pipM) n])
          ((n.name, ds.length) :: m)
      refine ⟨mkNicDecl tags sfx sh (List.lookup n.pipName pipM) n :: new, ?_, ?_⟩
      · rw [nicLoop, hn, h1]; simp
      · intro d hd
        rcases List.mem_cons.mp hd with he | hm
        · exact ⟨n, sh, List.lookup n.pipName pipM, List.mem_cons_self _ _, he⟩
        · obtain ⟨n', sh', pip', hn', he'⟩ := h2 d hm
          exact ⟨n', sh', pip', List.mem_cons_of_mem _ hn', he'⟩

theorem vmStep_ok (nicM : Index) (cfg : Config) (sfx : String)
    (tags : List (String × String)) (rnd : String) (ds : List Decl)
    (h : (vmStep nicM cfg sfx tags rnd ds).2 = none) :
    ∃ h0 h1 h2, List.lookup cfg.vm.nicMap.nic0 nicM = some h0 ∧
      List.lookup cfg.vm.nicMap.nic1 nicM = some h1 ∧
      List.lookup cfg.vm.nicMap.nic2 nicM = some h2 ∧
      (vmStep nicM cfg sfx tags rnd ds).1 = ds ++ [mkVmDecl cfg sfx tags rnd h0 h1 h2] := by
  cases e0 : List.lookup cfg.vm.nicMap.nic0 nicM with
  | none => rw [vmStep, e0] at h; cases h
  | some h0 =>
    cases e1 : List.lookup cfg.vm.nicMap.nic1 nicM with
    | none => rw [vmStep, e0, e1] at h; cases h
    | some h1 =>
      cases e2 : List.lookup cfg.vm.nicMap.nic2 nicM with
      | none => rw [vmStep, e0, e1, e2] at h; cases h
      | some h2 =>
        exact ⟨h0, h1, h2, rfl, rfl, rfl, by rw [vmStep, e0, e1, e2]⟩

theorem vmStep_shape (nicM : Index) (cfg : Config) (sfx : String)
    (tags : List (String × String)) (rnd : String) (ds : List Decl) :
    (vmStep nicM cfg sfx tags rnd ds).1 = ds ∨
      ∃ h0 h1 h2, (vmStep nicM cfg sfx tags rnd ds).1 =
        ds ++ [mkVmDecl cfg sfx tags rnd h0 h1 h2] := by
  cases e0 : List.lookup cfg.vm.nicMap.nic0 nicM with
  | none => left; rw [vmStep, e0]
  | some h0 =>
    cases e1 : List.lookup cfg.vm.nicMap.nic1 nicM with
    | none => left; rw [vmStep, e0, e1]
    | some h1 =>
      cases e2 : List.lookup cfg.vm.nicMap.nic2 nicM with
      | none => left; rw [vmStep, e0, e1, e2]
      | some h2 => exact Or.inr ⟨h0, h1, h2, by rw [vmStep, e0, e1, e2]⟩

theorem pairwise_append_block (ds new : List Decl) (k : Nat)
    (hds : List.Pairwise rankLE ds) (hmax : ∀ d ∈ ds, kindRank d ≤ k)
    (hnew : ∀ d ∈ new, kindRank d = k) :
    List.Pairwise rankLE (ds ++ new) ∧ ∀ d ∈ ds ++ new, kindRank d ≤ k := by
  constructor
  · refine List.pairwise_append.mpr ⟨hds, ?_, ?_⟩
    · refine List.pairwise_of_forall_mem_list fun a ha b hb => ?_
      unfold rankLE
      rw [hnew a ha, hnew b hb]
    · intro a ha b hb
      unfold rankLE
      rw [hnew b hb]
      exact hmax a ha
  · intro d hd
    rcases List.mem_append.mp hd with hm | hm
    · exact hmax d hm
    · exact le_of_eq (hnew d hm)

theorem run_ok (txt stack : String) (cfg : Config) (rnd : String)
    (h : (runProgram (some txt) stack cfg rnd).err = none) :
    (snetOut stack cfg).2.2 = none ∧ (nicOut stack cfg).2.2 = none ∧
      (vmOut stack cfg rnd).2 = none ∧
      (runProgram (some txt) stack cfg rnd).decls = (vmOut stack cfg rnd).1 ∧
      (runProgram (some txt) stack cfg rnd).exports = [("readme", txt)] := by
  cases hs : (snetOut stack cfg).2.2 with
  | some e => simp only [runProgram, hs] at h; cases h
  | none =>
    cases hn : (nicOut stack cfg).2.2 with
    | some e => simp only [runProgram, hs, hn] at h; cases h
    | none =>
      simp only [runProgram, hs, hn] at h ⊢
      exact ⟨trivial, trivial, h, by trivial, by trivial⟩

theorem trace_success (txt stack : String) (cfg : Config) (rnd : String)
    (h : (runProgram (some txt) stack cfg rnd).err = none) :
    ∃ h0 h1 h2,
      List.lookup cfg.vm.nicMap.nic0 (nicOut stack cfg).2.1 = some h0 ∧
      List.lookup cfg.vm.nicMap.nic1 (nicOut stack cfg).2.1 = some h1 ∧
      List.lookup cfg.vm.nicMap.nic2 (nicOut stack cfg).2.1 = some h2 ∧
      (runProgram (some txt) stack cfg rnd).decls =
        declsRg stack cfg
        ++ cfg.vnet.nsg.map (mkNsgDecl (tagsOf cfg) (nameSuffixOf stack))
        ++ cfg.vnet.rt.map (mkRtDecl (tagsOf cfg) (nameSuffixOf stack))
        ++ [vnetDecl cfg (nameSuffixOf stack) (tagsOf cfg)]
        ++ cfg.vnet.snet.map (fun s => Decl.subnet ("snet-" ++ s.name) s.addressPrefix
              ((List.lookup s.nsgName (nsgOut stack cfg).2).getD 0)
              ((List.lookup s.rtName (rtOut stack cfg).2).getD 0) (vnetId stack cfg))
        ++ cfg.vnet.pip.map (mkPipDecl (tagsOf cfg) (nameSuffixOf stack))
        ++ cfg.vnet.nic.map (fun n => mkNicDecl (tagsOf cfg) (nameSuffixOf stack)
              ((List.lookup n.snetName (snetOut stack cfg).2.1).getD 0)
              (List.lookup n.pipName (pipOut stack cfg).2) n)
        ++ [randomDecl]
        ++ [mkVmDecl cfg (nameSuffixOf stack) (tagsOf cfg) rnd h0 h1 h2] := by
  obtain ⟨hs, hn, hv, hdecls, -⟩ := run_ok txt stack cfg rnd h
  obtain ⟨hsd, -⟩ := snetLoop_ok _ _ _ _ _ _ hs
  obtain ⟨hnd, -⟩ := nicLoop_ok _ _ _ _ _ _ _ hn
  obtain ⟨h0, h1, h2, e0, e1, e2, hvd⟩ := vmStep_ok _ _ _ _ _ _ hv
  refine ⟨h0, h1, h2, e0, e1, e2, ?_⟩
  rw [hdecls]
  show (vmStep _ _ _ _ _ _).1 = _
  rw [hvd]
  show (declsToRandom stack cfg) ++ _ = _
  rw [declsToRandom]
  show (nicLoop _ _ _ _ _ _ _).1 ++ _ ++ _ = _
  rw [hnd]
  show (pipLoop _ _ _ (snetOut stack cfg).1 []).1 ++ _ ++ _ ++ _ = _
  rw [pipLoop_decls]
  show (snetLoop _ _ _ _ _ _).1 ++ _ ++ _ ++ _ ++ _ = _
  rw [hsd]
  show declsToVnet stack cfg ++ _ ++ _ ++ _ ++ _ ++ _ = _
  rw [declsToVnet]
  show (rtLoop _ _ _ (nsgOut stack cfg).1 []).1 ++ _ ++ _ ++ _ ++ _ ++ _ ++ _ = _
  rw [rtLoop_decls]
  show (nsgLoop _ _ _ _ _).1 ++ _ ++ _ ++ _ ++ _ ++ _ ++ _ ++ _ = _
  rw [nsgLoop_decls]
  try simp [List.append_assoc]

theorem nsgOut_index (stack : String) (cfg : Config) (nm : String) :
    List.lookup nm (nsgOut stack cfg).2 =
      resolveLast NSG.name (declsRg stack cfg).length cfg.vnet.nsg nm := by
  show List.lookup nm (nsgLoop _ _ _ _ _).2 = _
  rw [nsgLoop_index, List.append_nil, lookup_revEntries]

theorem rtOut_index (stack : String) (cfg : Config) (nm : String) :
    List.lookup nm (rtOut stack cfg).2 =
      resolveLast RT.name (nsgOut stack cfg).1.length cfg.vnet.rt nm := by
  show List.lookup nm (rtLoop _ _ _ _ _).2 = _
  rw [rtLoop_index, List.append_nil, lookup_revEntries]

theorem snetOut_index (stack : String) (cfg : Config)
    (h : (snetOut stack cfg).2.2 = none) (nm : String) :
    List.lookup nm (snetOut stack cfg).2.1 =
      resolveLast SNET.name (declsToVnet stack cfg).length cfg.vnet.snet nm := by
  obtain ⟨-, h2⟩ := snetLoop_ok _ _ _ _ _ _ h
  show List.lookup nm (snetLoop _ _ _ _ _ _).2.1 = _
  rw [h2, List.append_nil, lookup_revEntries]

theorem pipOut_index (stack : String) (cfg : Config) (nm : String) :
    List.lookup nm (pipOut stack cfg).2 =
      resolveLast PIP.name (snetOut stack cfg).1.length cfg.vnet.pip nm := by
  show List.lookup nm (pipLoop _ _ _ _ _).2 = _
  rw [pipLoop_index, List.append_nil, lookup_revEntries]

theorem nicOut_index (stack : String) (cfg : Config)
    (h : (nicOut stack cfg).2.2 = none) (nm : String) :
    List.lookup nm (nicOut stack cfg).2.1 =
      resolveLast NIC.name (pipOut stack cfg).1.length cfg.vnet.nic nm := by
  obtain ⟨-, h2⟩ := nicLoop_ok _ _ _ _ _ _ _ h
  show List.lookup nm (nicLoop _ _ _ _ _ _ _).2.1 = _
  rw [h2, List.append_nil, lookup_revEntries]

/-- C2: for every configuration, the sequence of resource declarations emitted
to the host runtime respects the partial order of section 4.4: the resource
group precedes every NSG, every NSG precedes every route table, every route
table precedes the virtual network, the virtual network precedes every subnet,
every subnet precedes every public IP, every public IP precedes every NIC,
every NIC precedes the random-identifier declaration, and the random
identifier precedes the VM.  Formally, the kind rank never decreases along
the emitted trace, whatever the readme, stack, configuration and random
string are, and whether or not the run aborts. -/
theorem kind_order_respected (readme : Option String) (stack : String)
    (cfg : Config) (rnd : String) :
    List.Pairwise (fun a b => kindRank a ≤ kindRank b)
      (runProgram readme stack cfg rnd).decls := by
  cases readme with
  | none => simp [runProgram]
  | some txt =>
    have hRg : List.Pairwise rankLE (declsRg stack cfg) ∧
        ∀ d ∈ declsRg stack cfg, kindRank d ≤ 0 := by
      refine ⟨?_, ?_⟩
      · simp [declsRg]
      · intro d hd
        simp only [declsRg, List.mem_singleton] at hd
        subst hd
        simp [rgDecl, kindRank]
    have e1 : (nsgOut stack cfg).1 =
        declsRg stack cfg ++ cfg.vnet.nsg.map (mkNsgDecl (tagsOf cfg) (nameSuffixOf stack)) :=
      nsgLoop_decls _ _ _ _ _
    have hNsg : List.Pairwise rankLE (nsgOut stack cfg).1 ∧
        ∀ d ∈ (nsgOut stack cfg).1, kindRank d ≤ 1 := by
      rw [e1]
      refine pairwise_append_block _ _ 1 hRg.1
        (fun d hd => Nat.le_trans (hRg.2 d hd) (by omega)) ?_
      intro d hd
      obtain ⟨g, -, rfl⟩ := List.mem_map.mp hd
      rfl
    have e2 : (rtOut stack cfg).1 =
        (nsgOut stack cfg).1 ++ cfg.vnet.rt.map (mkRtDecl (tagsOf cfg) (nameSuffixOf stack)) :=
      rtLoop_decls _ _ _ _ _
    have hRt : List.Pairwise rankLE (rtOut stack cfg).1 ∧
        ∀ d ∈ (rtOut stack cfg).1, kindRank d ≤ 2 := by
      rw [e2]
      refine pairwise_append_block _ _ 2 hNsg.1
        (fun d hd => Nat.le_trans (hNsg.2 d hd) (by omega)) ?_
      intro d hd
      obtain ⟨r, -, rfl⟩ := List.mem_map.mp hd
      rfl
    have hVnet : List.Pairwise rankLE (declsToVnet stack cfg) ∧
        ∀ d ∈ declsToVnet stack cfg, kindRank d ≤ 3 := by
      rw [declsToVnet]
      refine pairwise_append_block _ _ 3 hRt.1
        (fun d hd => Nat.le_trans (hRt.2 d hd) (by omega)) ?_
      intro d hd
      simp only [List.mem_singleton] at hd
      subst hd
      rfl
    obtain ⟨newS, es, hSnew⟩ := snetLoop_shape (nsgOut stack cfg).2 (rtOut stack cfg).2
      (vnetId stack cfg) cfg.vnet.snet (declsToVnet stack cfg) []
    have es' : (snetOut stack cfg).1 = declsToVnet stack cfg ++ newS := es
    have hSnet : List.Pairwise rankLE (snetOut stack cfg).1 ∧
        ∀ d ∈ (snetOut stack cfg).1, kindRank d ≤ 4 := by
      rw [es']
      refine pairwise_append_block _ _ 4 hVnet.1
        (fun d hd => Nat.le_trans (hVnet.2 d hd) (by omega)) ?_
      intro d hd
      obtain ⟨s, nh, rh, -, rfl⟩ := hSnew d hd
      rfl
    cases hs : (snetOut stack cfg).2.2 with
    | some e =>
      have hd : (runProgram (some txt) stack cfg rnd).decls = (snetOut stack cfg).1 := by
        simp only [runProgram, hs]
      rw [hd]
      exact hSnet.1
    | none =>
      have e4 : (pipOut stack cfg).1 =
          (snetOut stack cfg).1 ++ cfg.vnet.pip.map (mkPipDecl (tagsOf cfg) (nameSuffixOf stack)) :=
        pipLoop_decls _ _ _ _ _
      have hPip : List.Pairwise rankLE (pipOut stack cfg).1 ∧
          ∀ d ∈ (pipOut stack cfg).1, kindRank d ≤ 5 := by
        rw [e4]
        refine pairwise_append_block _ _ 5 hSnet.1
          (fun d hd => Nat.le_trans (hSnet.2 d hd) (by omega)) ?_
        intro d hd
        obtain ⟨p, -, rfl⟩ := List.mem_map.mp hd
        rfl
      obtain ⟨newN, en, hNnew⟩ := nicLoop_shape (tagsOf cfg) (nameSuffixOf stack)
        (snetOut stack cfg).2.1 (pipOut stack cfg).2 cfg.vnet.nic (pipOut stack cfg).1 []
      have en' : (nicOut stack cfg).1 = (pipOut stack cfg).1 ++ newN := en
      have hNic : List.Pairwise rankLE (nicOut stack cfg).1 ∧
          ∀ d ∈ (nicOut stack cfg).1, kindRank d ≤ 6 := by
        rw [en']
        refine pairwise_append_block _ _ 6 hPip.1
          (fun d hd => Nat.le_trans (hPip.2 d hd) (by omega)) ?_
        intro d hd
        obtain ⟨n, sh, pip, -, rfl⟩ := hNnew d hd
        rfl
      cases hn : (nicOut stack cfg).2.2 with
      | some e =>
        have hd : (runProgram (some txt) stack cfg rnd).decls = (nicOut stack cfg).1 := by
          simp only [runProgram, hs, hn]
        rw [hd]
        exact hNic.1
      | none =>
        have hRand : List.Pairwise rankLE (declsToRandom stack cfg) ∧
            ∀ d ∈ declsToRandom stack cfg, kindRank d ≤ 7 := by
          rw [declsToRandom]
          refine pairwise_append_block _ _ 7 hNic.1
            (fun d hd => Nat.le_trans (hNic.2 d hd) (by omega)) ?_
          intro d hd
          simp only [List.mem_singleton] at hd
          subst hd
          rfl
        have hd : (runProgram (some txt) stack cfg rnd).decls = (vmOut stack cfg rnd).1 := by
          simp only [runProgram, hs, hn]
        rw [hd]
        rcases vmStep_shape (nicOut stack cfg).2.1 cfg (nameSuffixOf stack) (tagsOf cfg) rnd
          (declsToRandom stack cfg) with hv | ⟨a, b, c, hv⟩
        · have hv' : (vmOut stack cfg rnd).1 = declsToRandom stack cfg := hv
          rw [hv']
          exact hRand.1
        · have hv' : (vmOut stack cfg rnd).1 =
              declsToRandom stack cfg ++ [mkVmDecl cfg (nameSuffixOf stack) (tagsOf cfg) rnd a b c] := hv
          rw [hv']
          refine (pairwise_append_block _ _ 8 hRand.1
            (fun d hd => Nat.le_trans (hRand.2 d hd) (by omega)) ?_).1
          intro d hd
          simp only [List.mem_singleton] at hd
          subst hd
          rfl

theorem tagOk_append {cfg : Config} {ds new : List Decl}
    (h1 : ∀ d ∈ ds, d.tagMap = none ∨ d.tagMap = some (tagsOf cfg))
    (h2 : ∀ d ∈ new, d.tagMap = none ∨ d.tagMap = some (tagsOf cfg)) :
    ∀ d ∈ ds ++ new, d.tagMap = none ∨ d.tagMap = some (tagsOf cfg) := by
  intro d hd
  rcases List.mem_append.mp hd with hm | hm
  · exact h1 d hm
  · exact h2 d hm

theorem tags_of_trace (readme : Option String) (stack : String) (cfg : Config)
    (rnd : String) :
    ∀ d ∈ (runProgram readme stack cfg rnd).decls,
      d.tagMap = none ∨ d.tagMap = some (tagsOf cfg) := by
  cases readme with
  | none => simp [runProgram]
  | some txt =>
    have hRg : ∀ d ∈ declsRg stack cfg, d.tagMap = none ∨ d.tagMap = some (tagsOf cfg) := by
      intro d hd
      simp only [declsRg, List.mem_singleton] at hd
      subst hd
      exact Or.inr rfl
    have hNsg : ∀ d ∈ (nsgOut stack cfg).1, d.tagMap = none ∨ d.tagMap = some (tagsOf cfg) := by
      have e : (nsgOut stack cfg).1 = declsRg stack cfg ++
          cfg.vnet.nsg.map (mkNsgDecl (tagsOf cfg) (nameSuffixOf stack)) := nsgLoop_decls _ _ _ _ _
      rw [e]
      refine tagOk_append hRg ?_
      intro d hd
      obtain ⟨g, -, rfl⟩ := List.mem_map.mp hd
      exact Or.inr rfl
    have hRt : ∀ d ∈ (rtOut stack cfg).1, d.tagMap = none ∨ d.tagMap = some (tagsOf cfg) := by
      have e : (rtOut stack cfg).1 = (nsgOut stack cfg).1 ++
          cfg.vnet.rt.map (mkRtDecl (tagsOf cfg) (nameSuffixOf stack)) := rtLoop_decls _ _ _ _ _
      rw [e]
      refine tagOk_append hNsg ?_
      intro d hd
      obtain ⟨r, -, rfl⟩ := List.mem_map.mp hd
      exact Or.inr rfl
    have hVnet : ∀ d ∈ declsToVnet stack cfg, d.tagMap = none ∨ d.tagMap = some (tagsOf cfg) := by
      rw [declsToVnet]
      refine tagOk_append hRt ?_
      intro d hd
      simp only [List.mem_singleton] at hd
      subst hd
      exact Or.inr rfl
    obtain ⟨newS, es, hSnew⟩ := snetLoop_shape (nsgOut stack cfg).2 (rtOut stack cfg).2
      (vnetId stack cfg) cfg.vnet.snet (declsToVnet stack cfg) []
    have es' : (snetOut stack cfg).1 = declsToVnet stack cfg ++ newS := es
    have hSnet : ∀ d ∈ (snetOut stack cfg).1, d.tagMap = none ∨ d.tagMap = some (tagsOf cfg) := by
      rw [es']
      refine tagOk_append hVnet ?_
      intro d hd
      obtain ⟨s, nh, rh, -, rfl⟩ := hSnew d hd
      exact Or.inl rfl
    cases hs : (snetOut stack cfg).2.2 with
    | some e =>
      have hd : (runProgram (some txt) stack cfg rnd).decls = (snetOut stack cfg).1 := by
        simp only [runProgram, hs]
      rw [hd]
      exact hSnet
    | none =>
      have hPip : ∀ d ∈ (pipOut stack cfg).1, d.tagMap = none ∨ d.tagMap = some (tagsOf cfg) := by
        have e : (pipOut stack cfg).1 = (snetOut stack cfg).1 ++
            cfg.vnet.pip.map (mkPipDecl (tagsOf cfg) (nameSuffixOf stack)) := pipLoop_decls _ _ _ _ _
        rw [e]
        refine tagOk_append hSnet ?_
        intro d hd
        obtain ⟨p, -, rfl⟩ := List.mem_map.mp hd
        exact Or.inr rfl
      obtain ⟨newN, en, hNnew⟩ := nicLoop_shape (tagsOf cfg) (nameSuffixOf stack)
        (snetOut stack cfg).2.1 (pipOut stack cfg).2 cfg.vnet.nic (pipOut stack cfg).1 []
      have en' : (nicOut stack cfg).1 = (pipOut stack cfg).1 ++ newN := en
      have hNic : ∀ d ∈ (nicOut stack cfg).1, d.tagMap = none ∨ d.tagMap = some (tagsOf cfg) := by
        rw [en']
        refine tagOk_append hPip ?_
        intro d hd
        obtain ⟨n, sh, pip, -, rfl⟩ := hNnew d hd
        exact Or.inr rfl
      cases hn : (nicOut stack cfg).2.2 with
      | some e =>
        have hd : (runProgram (some txt) stack cfg rnd).decls = (nicOut stack cfg).1 := by
          simp only [runProgram, hs, hn]
        rw [hd]
        exact hNic
      | none =>
        have hRand : ∀ d ∈ declsToRandom stack cfg,
            d.tagMap = none ∨ d.tagMap = some (tagsOf cfg) := by
          rw [declsToRandom]
          refine tagOk_append hNic ?_
          intro d hd
          simp only [List.mem_singleton] at hd
          subst hd
          exact Or.inl rfl
        have hd : (runProgram (some txt) stack cfg rnd).decls = (vmOut stack cfg rnd).1 := by
          simp only [runProgram, hs, hn]
        rw [hd]
        rcases vmStep_shape (nicOut stack cfg).2.1 cfg (nameSuffixOf stack) (tagsOf cfg) rnd
          (declsToRandom stack cfg) with hv | ⟨a, b, c, hv⟩
        · have hv' : (vmOut stack cfg rnd).1 = declsToRandom stack cfg := hv
          rw [hv']
          exact hRand
        · have hv' : (vmOut stack cfg rnd).1 =
              declsToRandom stack cfg ++
                [mkVmDecl cfg (nameSuffixOf stack) (tagsOf cfg) rnd a b c] := hv
          rw [hv']
          refine tagOk_append hRand ?_
          intro d hd
          simp only [List.mem_singleton] at hd
          subst hd
          exact Or.inr rfl

/-- C7: every taggable resource declared by the run (resource group, NSG,
route table, virtual network, public IP, NIC, VM) carries both the
`automation` and `solution` tags with the values taken from the
configuration's tags section.  Subnets and the random identifier carry no
tag map at all; every declaration that does carry one carries exactly the
required pair. -/
theorem taggable_resources_carry_required_tags (readme : Option String)
    (stack : String) (cfg : Config) (rnd : String) (d : Decl)
    (hd : d ∈ (runProgram readme stack cfg rnd).decls)
    (ht : d.tagMap ≠ none) :
    d.tagMap = some (requiredTagsOf cfg.tags) := by
  rcases tags_of_trace readme stack cfg rnd d hd with h | h
  · exact absurd h ht
  · exact h

/-- Witness for C7: in a concrete successful run, the first declaration (the
resource group) carries exactly the configured automation and solution tags. -/
theorem taggable_resources_carry_required_tags_witness :
    (Decl.resourceGroup "rg-panos-vm-dev-" [("automation", "a"), ("solution", "s")]) ∈
      (runProgram (some "R") "dev" cfgOk "ab12cd34").decls ∧
    (Decl.resourceGroup "rg-panos-vm-dev-" [("automation", "a"), ("solution", "s")]).tagMap =
      some (requiredTagsOf cfgOk.tags) :=
  ⟨by decide,
   taggable_resources_carry_required_tags (some "R") "dev" cfgOk "ab12cd34" _
     (by decide) (by decide)⟩

/-- C8: the run publishes the readme's content as a stack output under the
key `readme`; when the readme cannot be read, the run fails with the
readme-missing error before any resource is declared and exports nothing. -/
theorem readme_export_and_missing (stack txt : String) (cfg : Config) (rnd : String) :
    (runProgram (some txt) stack cfg rnd).exports = [("readme", txt)] ∧
    (runProgram none stack cfg rnd).decls = [] ∧
    (runProgram none stack cfg rnd).exports = [] ∧
    (runProgram none stack cfg rnd).err = some RunError.readmeMissing := by
  refine ⟨?_, rfl, rfl, rfl⟩
  rw [runProgram]
  cases hs : (snetOut stack cfg).2.2 with
  | some e => rfl
  | none =>
    cases hn : (nicOut stack cfg).2.2 with
    | some e => rfl
    | none => rfl

theorem nicLoop_ok_lookup (tags : List (String × String)) (sfx : String)
    (snetM pipM : Index) (l : List NIC) (ds : List Decl) (m : Index)
    (h : (nicLoop tags sfx snetM pipM l ds m).2.2 = none) :
    ∀ n ∈ l, (List.lookup n.snetName snetM).isSome := by
  induction l generalizing ds m with
  | nil => intro n hn; cases hn
  | cons a rest ih =>
    cases hn : List.lookup a.snetName snetM with
    | none => rw [nicLoop, hn] at h; cases h
    | some sh =>
      rw [nicLoop, hn] at h
      intro n hmem
      rcases List.mem_cons.mp hmem with he | hm
      · subst he; rw [hn]; rfl
      · exact ih _ _ h n hm

/-- C1 counterexample: with a configuration whose only subnet references the
undeclared NSG `nsg-ghost`, the run does fail, but with the nil-handle panic
of `nsgMap[snet.NSGName].ID()`, not with an `UnresolvedReference` error as
the claim states. -/
theorem unresolved_reference_counterexample :
    (runProgram (some "R") "dev" cfgGhost "ab12cd34").err =
      some (RunError.nilDeref "nsgMap" "nsg-ghost") ∧
    RunError.isUnresolvedRef (RunError.nilDeref "nsgMap" "nsg-ghost") = false := by
  decide

/-- C1 (amended): for every subnet in the configuration whose `NSGName` or
`RTName` does not name an NSG or route table declared in the same
configuration, the declaration run fails — but with the nil-handle
dereference panic of the subnet loop (which records the map consulted and the
missing logical name), not with an `UnresolvedReference(kind, name)` error:
no code path produces that error. -/
theorem unresolved_subnet_reference_panics (txt stack : String) (cfg : Config)
    (rnd : String) (s : SNET) (hs : s ∈ cfg.vnet.snet)
    (hmiss : s.nsgName ∉ cfg.vnet.nsg.map NSG.name ∨
      s.rtName ∉ cfg.vnet.rt.map RT.name) :
    ∃ mp k, (runProgram (some txt) stack cfg rnd).err = some (RunError.nilDeref mp k) ∧
      (mp = "nsgMap" ∨ mp = "rtMap") ∧
      RunError.isUnresolvedRef (RunError.nilDeref mp k) = false := by
  have hmiss' : List.lookup s.nsgName (nsgOut stack cfg).2 = none ∨
      List.lookup s.rtName (rtOut stack cfg).2 = none := by
    rcases hmiss with h | h
    · left
      rw [nsgOut_index]
      exact (resolveLast_eq_none _ _ _ _).mpr h
    · right
      rw [rtOut_index]
      exact (resolveLast_eq_none _ _ _ _).mpr h
  obtain ⟨mp, k, he, hor⟩ := snetLoop_fail (nsgOut stack cfg).2 (rtOut stack cfg).2
    (vnetId stack cfg) cfg.vnet.snet (declsToVnet stack cfg) [] s hs hmiss'
  have he' : (snetOut stack cfg).2.2 = some (RunError.nilDeref mp k) := he
  refine ⟨mp, k, ?_, hor, rfl⟩
  simp only [runProgram, he']

/-- Witness for the amended C1: the ghost configuration's subnet is in the
configuration, its NSG name is undeclared, and applying the amended theorem
yields the promised nil-handle panic. -/
theorem unresolved_subnet_reference_panics_witness :
    (⟨"10.0.0.0/24", "s1", "nsg-ghost", "t"⟩ : SNET) ∈ cfgGhost.vnet.snet ∧
    ∃ mp k, (runProgram (some "R") "dev" cfgGhost "ab12cd34").err =
        some (RunError.nilDeref mp k) ∧
      (mp = "nsgMap" ∨ mp = "rtMap") ∧
      RunError.isUnresolvedRef (RunError.nilDeref mp k) = false :=
  ⟨by decide,
   unresolved_subnet_reference_panics "R" "dev" cfgGhost "ab12cd34"
     ⟨"10.0.0.0/24", "s1", "nsg-ghost", "t"⟩ (by decide) (Or.inl (by decide))⟩

/-- C3 counterexample: in a configuration that declares a public IP whose
logical name is the empty string, a NIC whose `pipName` is empty does get a
public-IP binding (handle 5), contradicting the claim that an empty `pipName`
never yields a binding. -/
theorem nic_empty_pip_counterexample :
    cfgEmptyPip.vnet.nic.map NIC.pipName = [""] ∧
    (runProgram (some "R") "dev" cfgEmptyPip "ab12cd34").decls.get? 6 =
      some (Decl.networkInterface "nic-n1-panos-vm-dev-" false false "Standard"
        [⟨"ipconfig", 4, some 5⟩] [("automation", "a"), ("solution", "s")]) := by
  decide

/-- C3 (amended): in a successful run, every configured NIC is declared with
exactly one IP configuration, named `ipconfig`, bound to the handle the
subnet index resolves for its `snetName`; its public-IP field is exactly the
public-IP index lookup of its `pipName`, so a binding is embedded if and only
if that lookup succeeds (including for an empty `pipName` when a public IP
with the empty logical name is declared), and is omitted when the name does
not resolve. -/
theorem nic_ipconfig_and_pip_binding (txt stack : String) (cfg : Config)
    (rnd : String) (h : (runProgram (some txt) stack cfg rnd).err = none)
    (n : NIC) (hn : n ∈ cfg.vnet.nic) :
    ∃ sh, List.lookup n.snetName (snetOut stack cfg).2.1 = some sh ∧
      Decl.networkInterface ("nic-" ++ n.name ++ "-" ++ nameSuffixOf stack)
        n.enableAcceleratedNetworking n.enableIPForwarding "Standard"
        [⟨"ipconfig", sh, List.lookup n.pipName (pipOut stack cfg).2⟩]
        (requiredTagsOf cfg.tags)
        ∈ (runProgram (some txt) stack cfg rnd).decls := by
  obtain ⟨hs, hn2, hv, hdecls, -⟩ := run_ok txt stack cfg rnd h
  obtain ⟨hnd, -⟩ := nicLoop_ok _ _ _ _ _ _ _ hn2
  have hsome := nicLoop_ok_lookup _ _ _ _ _ _ _ hn2 n hn
  obtain ⟨sh, hsh⟩ := Option.isSome_iff_exists.mp hsome
  refine ⟨sh, hsh, ?_⟩
  rw [hdecls]
  obtain ⟨h0, h1, h2, -, -, -, hvd⟩ := vmStep_ok _ _ _ _ _ _ hv
  have hvd' : (vmOut stack cfg rnd).1 = declsToRandom stack cfg ++
      [mkVmDecl cfg (nameSuffixOf stack) (tagsOf cfg) rnd h0 h1 h2] := hvd
  rw [hvd']
  refine List.mem_append_left _ ?_
  rw [declsToRandom]
  refine List.mem_append_left _ ?_
  have hnd' : (nicOut stack cfg).1 = (pipOut stack cfg).1 ++
      cfg.vnet.nic.map (fun n => mkNicDecl (tagsOf cfg) (nameSuffixOf stack)
        ((List.lookup n.snetName (snetOut stack cfg).2.1).getD 0)
        (List.lookup n.pipName (pipOut stack cfg).2) n) := hnd
  rw [hnd']
  refine List.mem_append_right _ ?_
  have hmem := List.mem_map_of_mem (fun n => mkNicDecl (tagsOf cfg) (nameSuffixOf stack)
      ((List.lookup n.snetName (snetOut stack cfg).2.1).getD 0)
      (List.lookup n.pipName (pipOut stack cfg).2) n) hn
  simpa [mkNicDecl, tagsOf, hsh] using hmem

/-- Witness for the amended C3: applying the theorem to the happy-path
configuration's NIC (whose `pipName` is empty and unresolved) yields its
declaration with one `ipconfig` and no public-IP binding. -/
theorem nic_ipconfig_and_pip_binding_witness :
    ∃ sh, List.lookup "s1" (snetOut "dev" cfgOk).2.1 = some sh ∧
      Decl.networkInterface ("nic-" ++ "n" ++ "-" ++ nameSuffixOf "dev")
        false false "Standard"
        [⟨"ipconfig", sh, List.lookup "" (pipOut "dev" cfgOk).2⟩]
        (requiredTagsOf cfgOk.tags)
        ∈ (runProgram (some "R") "dev" cfgOk "ab12cd34").decls :=
  nic_ipconfig_and_pip_binding "R" "dev" cfgOk "ab12cd34" (by decide)
    ⟨false, false, "n", "", "s1"⟩ (by decide)

/-- C4 counterexample: in a concrete successful run the VM declaration — the
last declaration of the trace — is named `vm-s-prod-` (from the solution tag
`s`), and no choice of kind prefix and logical name makes that equal to
`<kind-prefix>-<logical-name>-<name-suffix>`: the claimed form always has
length at least 15, while `vm-s-prod-` has length 10. -/
theorem declared_names_counterexample :
    ((runProgram (some "R") "dev" cfgOk "ab12cd34").decls.map Decl.name).getLast? =
      some "vm-s-prod-" ∧
    ¬ ∃ p l, "vm-s-prod-" = p ++ "-" ++ l ++ "-" ++ nameSuffixOf "dev" := by
  constructor
  · decide
  · rintro ⟨p, l, hpl⟩
    have hlen := congrArg String.length hpl
    rw [String.length_append, String.length_append, String.length_append,
      String.length_append] at hlen
    have e1 : ("vm-s-prod-" : String).length = 10 := rfl
    have e2 : ("-" : String).length = 1 := rfl
    have e3 : (nameSuffixOf "dev").length = 13 := rfl
    rw [e1, e2, e3] at hlen
    omega

/-- C4 (amended): in a successful run the declared names are, in trace order:
`rg-<name-suffix>` for the resource group and `vnet-<name-suffix>` for the
virtual network (no logical-name segment), `<kind-prefix>-<logical-name>-<name-suffix>`
for NSGs, route tables, public IPs and NICs, `snet-<logical-name>` (no
suffix) for subnets, the fixed name `random-os-disk-id` for the random
identifier, and `vm-<solution>-prod-` (from the solution tag, with no name
suffix) for the VM. -/
theorem declared_names (txt stack : String) (cfg : Config) (rnd : String)
    (h : (runProgram (some txt) stack cfg rnd).err = none) :
    (runProgram (some txt) stack cfg rnd).decls.map Decl.name =
      ["rg-" ++ nameSuffixOf stack]
      ++ cfg.vnet.nsg.map (fun g => "nsg-" ++ g.name ++ "-" ++ nameSuffixOf stack)
      ++ cfg.vnet.rt.map (fun r => "rt-" ++ r.name ++ "-" ++ nameSuffixOf stack)
      ++ ["vnet-" ++ nameSuffixOf stack]
      ++ cfg.vnet.snet.map (fun s => "snet-" ++ s.name)
      ++ cfg.vnet.pip.map (fun p => "pip-" ++ p.name ++ "-" ++ nameSuffixOf stack)
      ++ cfg.vnet.nic.map (fun n => "nic-" ++ n.name ++ "-" ++ nameSuffixOf stack)
      ++ ["random-os-disk-id"]
      ++ ["vm-" ++ cfg.tags.solution ++ "-prod-"] := by
  obtain ⟨h0, h1, h2, -, -, -, hdecls⟩ := trace_success txt stack cfg rnd h
  rw [hdecls]
  simp only [List.map_append, List.map_map, List.map_cons, List.map_nil, declsRg,
    List.append_assoc]
  rfl

/-- Witness for the amended C4: the name list of a concrete successful run. -/
theorem declared_names_witness :
    (runProgram (some "R") "dev" cfgOk "ab12cd34").decls.map Decl.name =
      ["rg-" ++ nameSuffixOf "dev"]
      ++ cfgOk.vnet.nsg.map (fun g => "nsg-" ++ g.name ++ "-" ++ nameSuffixOf "dev")
      ++ cfgOk.vnet.rt.map (fun r => "rt-" ++ r.name ++ "-" ++ nameSuffixOf "dev")
      ++ ["vnet-" ++ nameSuffixOf "dev"]
      ++ cfgOk.vnet.snet.map (fun s => "snet-" ++ s.name)
      ++ cfgOk.vnet.pip.map (fun p => "pip-" ++ p.name ++ "-" ++ nameSuffixOf "dev")
      ++ cfgOk.vnet.nic.map (fun n => "nic-" ++ n.name ++ "-" ++ nameSuffixOf "dev")
      ++ ["random-os-disk-id"]
      ++ ["vm-" ++ cfgOk.tags.solution ++ "-prod-"] :=
  declared_names "R" "dev" cfgOk "ab12cd34" (by decide)

/-- C5: in a successful run the VM's OS disk is declared with caching
`ReadWrite`, create option `FromImage`, delete option `Delete` and size 127
GiB, and its name is `os-panos-vm-<stack>-` followed by the freshly generated
identifier, which — by the contract of the random-string resource declared
with length 8, at least 4 lowercase letters, at least 4 digits, and the
uppercase and special character classes disabled — is an 8-character string
over lowercase letters and digits with at least 4 letters and at least 4
digits and no special characters. -/
theorem os_disk_properties (txt stack : String) (cfg : Config) (rnd : String)
    (h : (runProgram (some txt) stack cfg rnd).err = none)
    (hr : SatisfiesRandomArgs declaredRandomArgs rnd) :
    randomDecl ∈ (runProgram (some txt) stack cfg rnd).decls ∧
    (∃ h0 h1 h2, (runProgram (some txt) stack cfg rnd).decls =
        declsToRandom stack cfg ++
          [mkVmDecl cfg (nameSuffixOf stack) (tagsOf cfg) rnd h0 h1 h2]) ∧
    mkOsDisk (nameSuffixOf stack) cfg.vm.storageAccountType rnd =
      ⟨"ReadWrite", "FromImage", "Delete", 127, cfg.vm.storageAccountType,
        "os-panos-vm-" ++ stack ++ "-" ++ rnd⟩ ∧
    rnd.data.length = 8 ∧
    (∀ c ∈ rnd.data, isLowerAlpha c = true ∨ isDigitCh c = true) ∧
    4 ≤ rnd.data.countP isLowerAlpha ∧
    4 ≤ rnd.data.countP isDigitCh := by
  obtain ⟨hs, hn, hv, hdecls, -⟩ := run_ok txt stack cfg rnd h
  obtain ⟨h0, h1, h2, -, -, -, hvd⟩ := vmStep_ok _ _ _ _ _ _ hv
  have hvd' : (vmOut stack cfg rnd).1 = declsToRandom stack cfg ++
      [mkVmDecl cfg (nameSuffixOf stack) (tagsOf cfg) rnd h0 h1 h2] := hvd
  obtain ⟨hlen, hall, hlow, hnum⟩ := hr
  refine ⟨?_, ⟨h0, h1, h2, by rw [hdecls]; exact hvd'⟩, ?_, hlen, ?_, hlow, hnum⟩
  · rw [hdecls, hvd']
    refine List.mem_append_left _ ?_
    rw [declsToRandom]
    exact List.mem_append_right _ (List.mem_singleton.mpr rfl)
  · rw [mkOsDisk, nameSuffixOf]
    simp [← String.append_assoc]
  · intro c hc
    have := hall c hc
    simpa [allowedChar, declaredRandomArgs] using this

/-- Witness for C5: the concrete run with the provider output `ab12cd34`. -/
theorem os_disk_properties_witness :
    randomDecl ∈ (runProgram (some "R") "dev" cfgOk "ab12cd34").decls ∧
    (∃ h0 h1 h2, (runProgram (some "R") "dev" cfgOk "ab12cd34").decls =
        declsToRandom "dev" cfgOk ++
          [mkVmDecl cfgOk (nameSuffixOf "dev") (tagsOf cfgOk) "ab12cd34" h0 h1 h2]) ∧
    mkOsDisk (nameSuffixOf "dev") cfgOk.vm.storageAccountType "ab12cd34" =
      ⟨"ReadWrite", "FromImage", "Delete", 127, cfgOk.vm.storageAccountType,
        "os-panos-vm-" ++ "dev" ++ "-" ++ "ab12cd34"⟩ ∧
    ("ab12cd34" : String).data.length = 8 ∧
    (∀ c ∈ ("ab12cd34" : String).data, isLowerAlpha c = true ∨ isDigitCh c = true) ∧
    4 ≤ ("ab12cd34" : String).data.countP isLowerAlpha ∧
    4 ≤ ("ab12cd34" : String).data.countP isDigitCh :=
  os_disk_properties "R" "dev" cfgOk "ab12cd34" (by decide) (by decide)

/-- C6: in a successful run the declared VM references exactly three NICs,
whose handles are resolved from the configured `nic0`, `nic1`, `nic2` names
in the NIC index, and exactly one of the three references — the one resolved
from `nic0` — is marked primary. -/
theorem vm_three_nics_one_primary (txt stack : String) (cfg : Config) (rnd : String)
    (h : (runProgram (some txt) stack cfg rnd).err = none) :
    ∃ h0 h1 h2,
      List.lookup cfg.vm.nicMap.nic0 (nicOut stack cfg).2.1 = some h0 ∧
      List.lookup cfg.vm.nicMap.nic1 (nicOut stack cfg).2.1 = some h1 ∧
      List.lookup cfg.vm.nicMap.nic2 (nicOut stack cfg).2.1 = some h2 ∧
      (runProgram (some txt) stack cfg rnd).decls =
        declsToRandom stack cfg ++
          [mkVmDecl cfg (nameSuffixOf stack) (tagsOf cfg) rnd h0 h1 h2] ∧
      ([⟨h0, true⟩, ⟨h1, false⟩, ⟨h2, false⟩] : List NicRef).length = 3 ∧
      ([⟨h0, true⟩, ⟨h1, false⟩, ⟨h2, false⟩] : List NicRef).countP NicRef.primary = 1 := by
  obtain ⟨hs, hn, hv, hdecls, -⟩ := run_ok txt stack cfg rnd h
  obtain ⟨h0, h1, h2, e0, e1, e2, hvd⟩ := vmStep_ok _ _ _ _ _ _ hv
  exact ⟨h0, h1, h2, e0, e1, e2, by rw [hdecls]; exact hvd, rfl, rfl⟩

/-- Witness for C6: the concrete happy-path run. -/
theorem vm_three_nics_one_primary_witness :
    ∃ h0 h1 h2,
      List.lookup cfgOk.vm.nicMap.nic0 (nicOut "dev" cfgOk).2.1 = some h0 ∧
      List.lookup cfgOk.vm.nicMap.nic1 (nicOut "dev" cfgOk).2.1 = some h1 ∧
      List.lookup cfgOk.vm.nicMap.nic2 (nicOut "dev" cfgOk).2.1 = some h2 ∧
      (runProgram (some "R") "dev" cfgOk "ab12cd34").decls =
        declsToRandom "dev" cfgOk ++
          [mkVmDecl cfgOk (nameSuffixOf "dev") (tagsOf cfgOk) "ab12cd34" h0 h1 h2] ∧
      ([⟨h0, true⟩, ⟨h1, false⟩, ⟨h2, false⟩] : List NicRef).length = 3 ∧
      ([⟨h0, true⟩, ⟨h1, false⟩, ⟨h2, false⟩] : List NicRef).countP NicRef.primary = 1 :=
  vm_three_nics_one_primary "R" "dev" cfgOk "ab12cd34" (by decide)

/-- C9: in a successful run, every configuration entry of each of the five
indexed kinds yields its own declaration (the trace grows by exactly one
declaration per entry, so duplicate logical names still each get a resource),
while each name-resolution index maps a logical name to `resolveLast` of the
kind's entry list — the handle of the last-declared entry carrying that name —
so every downstream lookup of a duplicated name resolves to the later
resource. -/
theorem duplicate_names_last_wins (txt stack : String) (cfg : Config) (rnd : String)
    (h : (runProgram (some txt) stack cfg rnd).err = none) :
    (∀ nm, List.lookup nm (nsgOut stack cfg).2 =
        resolveLast NSG.name (declsRg stack cfg).length cfg.vnet.nsg nm) ∧
    (∀ nm, List.lookup nm (rtOut stack cfg).2 =
        resolveLast RT.name (nsgOut stack cfg).1.length cfg.vnet.rt nm) ∧
    (∀ nm, List.lookup nm (snetOut stack cfg).2.1 =
        resolveLast SNET.name (declsToVnet stack cfg).length cfg.vnet.snet nm) ∧
    (∀ nm, List.lookup nm (pipOut stack cfg).2 =
        resolveLast PIP.name (snetOut stack cfg).1.length cfg.vnet.pip nm) ∧
    (∀ nm, List.lookup nm (nicOut stack cfg).2.1 =
        resolveLast NIC.name (pipOut stack cfg).1.length cfg.vnet.nic nm) ∧
    (nsgOut stack cfg).1.length = (declsRg stack cfg).length + cfg.vnet.nsg.length ∧
    (rtOut stack cfg).1.length = (nsgOut stack cfg).1.length + cfg.vnet.rt.length ∧
    (snetOut stack cfg).1.length = (declsToVnet stack cfg).length + cfg.vnet.snet.length ∧
    (pipOut stack cfg).1.length = (snetOut stack cfg).1.length + cfg.vnet.pip.length ∧
    (nicOut stack cfg).1.length = (pipOut stack cfg).1.length + cfg.vnet.nic.length := by
  obtain ⟨hs, hn, -, -, -⟩ := run_ok txt stack cfg rnd h
  refine ⟨nsgOut_index stack cfg, rtOut_index stack cfg, snetOut_index stack cfg hs,
    pipOut_index stack cfg, nicOut_index stack cfg hn, ?_, ?_, ?_, ?_, ?_⟩
  · have e : (nsgOut stack cfg).1 = declsRg stack cfg ++
        cfg.vnet.nsg.map (mkNsgDecl (tagsOf cfg) (nameSuffixOf stack)) :=
      nsgLoop_decls _ _ _ _ _
    rw [e]
    simp
  · have e : (rtOut stack cfg).1 = (nsgOut stack cfg).1 ++
        cfg.vnet.rt.map (mkRtDecl (tagsOf cfg) (nameSuffixOf stack)) :=
      rtLoop_decls _ _ _ _ _
    rw [e]
    simp
  · obtain ⟨e, -⟩ := snetLoop_ok _ _ _ _ _ _ hs
    have e' : (snetOut stack cfg).1 = declsToVnet stack cfg ++
        cfg.vnet.snet.map (fun s => Decl.subnet ("snet-" ++ s.name) s.addressPrefix
          ((List.lookup s.nsgName (nsgOut stack cfg).2).getD 0)
          ((List.lookup s.rtName (rtOut stack cfg).2).getD 0) (vnetId stack cfg)) := e
    rw [e']
    simp
  · have e : (pipOut stack cfg).1 = (snetOut stack cfg).1 ++
        cfg.vnet.pip.map (mkPipDecl (tagsOf cfg) (nameSuffixOf stack)) :=
      pipLoop_decls _ _ _ _ _
    rw [e]
    simp
  · obtain ⟨e, -⟩ := nicLoop_ok _ _ _ _ _ _ _ hn
    have e' : (nicOut stack cfg).1 = (pipOut stack cfg).1 ++
        cfg.vnet.nic.map (fun n => mkNicDecl (tagsOf cfg) (nameSuffixOf stack)
          ((List.lookup n.snetName (snetOut stack cfg).2.1).getD 0)
          (List.lookup n.pipName (pipOut stack cfg).2) n) := e
    rw [e']
    simp

/-- Witness for C9: in the duplicate-name configuration both NSGs named `g`
and both route tables named `t` are declared (three declarations precede the
route tables), and the indices resolve `g` to handle 2 and `t` to handle 4 —
the later declaration in each pair. -/
theorem duplicate_names_last_wins_witness :
    List.lookup "g" (nsgOut "dev" cfgDup).2 = some 2 ∧
    List.lookup "t" (rtOut "dev" cfgDup).2 = some 4 ∧
    (nsgOut "dev" cfgDup).1.length = 3 ∧
    (rtOut "dev" cfgDup).1.length = 5 := by
  have h := duplicate_names_last_wins "R" "dev" cfgDup "ab12cd34" (by decide)
  refine ⟨?_, ?_, ?_, ?_⟩
  · rw [h.1]
    decide
  · rw [h.2.1]
    decide
  · rw [h.2.2.2.2.2.1]
    decide
  · rw [h.2.2.2.2.2.2.1]
    decide

/-- C10: the random OS-disk identifier resource is declared with total length
8, a minimum of 4 lowercase letters and a minimum of 4 digits, and therefore
every string the provider can produce for it contains exactly 4 lowercase
letters and exactly 4 digits. -/
theorem random_id_exactly_four_each :
    randomDecl = Decl.randomString "random-os-disk-id" ⟨8, true, 4, 4, true, false, false⟩ ∧
    ∀ s, SatisfiesRandomArgs declaredRandomArgs s →
      s.data.countP isLowerAlpha = 4 ∧ s.data.countP isDigitCh = 4 := by
  refine ⟨rfl, ?_⟩
  intro s hs
  obtain ⟨hlen, hall, hlow, hnum⟩ := hs
  have hlen8 : s.data.length = 8 := hlen
  have hlow4 : 4 ≤ s.data.countP isLowerAlpha := hlow
  have hnum4 : 4 ≤ s.data.countP isDigitCh := hnum
  have hdisj : ∀ c ∈ s.data, isDigitCh c = true → isLowerAlpha c = false := by
    intro c _ hd
    simp only [isDigitCh, decide_eq_true_eq] at hd
    simp only [isLowerAlpha, decide_eq_false_iff_not, not_and, not_le]
    have ea : ('a' : Char).toNat = 97 := rfl
    have e9 : ('9' : Char).toNat = 57 := rfl
    have e0 : ('0' : Char).toNat = 48 := rfl
    rw [e0, e9] at hd
    rw [ea]
    omega
  have hsplit := List.length_eq_countP_add_countP isLowerAlpha s.data
  have hle : s.data.countP isDigitCh ≤
      s.data.countP fun a => decide ¬ isLowerAlpha a = true := by
    refine List.countP_mono_left ?_
    intro c hc hd
    simp [hdisj c hc hd]
  rw [hlen8] at hsplit
  omega

/-- Witness for C10: the provider output `ab12cd34` satisfies the declared
arguments and indeed has exactly 4 letters and 4 digits. -/
theorem random_id_exactly_four_each_witness :
    SatisfiesRandomArgs declaredRandomArgs "ab12cd34" ∧
    ("ab12cd34" : String).data.countP isLowerAlpha = 4 ∧
    ("ab12cd34" : String).data.countP isDigitCh = 4 :=
  ⟨by decide, random_id_exactly_four_each.2 "ab12cd34" (by decide)⟩
